import Mathlib

/-!
# Block retrieval worker, block getter and account logout

A shallow embedding of three Go source files of the repository:

* `libkbfs/block_getter.go` : `realBlockGetter.getBlock`, the fetch / verify /
  key derivation / decode / decrypt pipeline;
* `libkbfs/block_retrieval_worker.go` : `notifyBlockRequestor`,
  `finalizeRetrieval` and `HandleRequest`;
* `go/libkb/account.go` : `Account.Logout` and the clearing helpers it calls.

Side effects (calls on collaborators, spawned goroutines) are recorded as
explicit event lists; a Go panic is an explicit outcome.  Collaborators that
are Go interfaces whose implementations live outside these files (block
server, crypto, key manager, codec, the retrieval queue, the session) are
parameters of the embedding.
-/

namespace libkbfs

/-! ## Errors and outcomes -/

/-- Go `error` values that the embedded code distinguishes.  `contextCanceled`
is the sentinel `context.Canceled`; `bserverBadRequest` is any value whose
dynamic type is `BServerErrorBadRequest`; `other` is every other error. -/
inductive GoError where
  | contextCanceled
  | bserverBadRequest (msg : String)
  | other (msg : String)
  deriving DecidableEq, Repr

/-- The `Error()` string of an error, as `%s` prints it. -/
def GoError.Error : GoError → String
  | .contextCanceled => "context canceled"
  | .bserverBadRequest m => m
  | .other m => m

/-- The type assertion `_, ok := err.(BServerErrorBadRequest)`. -/
def GoError.isBadRequest : GoError → Bool
  | .bserverBadRequest _ => true
  | _ => false

/-- How a Go function call ends: it returns its `error` result (`none` is
`nil`), or it panics with a message. -/
inductive Outcome where
  | returned (err : Option GoError)
  | panicked (msg : String)
  deriving DecidableEq, Repr

/-! ## Data model -/

abbrev Byte := Fin 256

/-- A `context.Context` value: an identity and whether its `Done()` channel is
already closed when the worker's `select` polls it. -/
structure Ctx where
  id : Nat
  done : Bool
  deriving DecidableEq, Repr

/-- A Go variable of interface type `context.Context`; `none` is the nil
interface (the value of `var ctx context.Context`). -/
abbrev Context := Option Ctx

structure BlockPointer where
  ID : Nat
  BlockContext : Nat
  deriving DecidableEq, Repr

/-- The `KeyMetadata` handle; only `TlfID()` is read by the embedded code. -/
structure KeyMetadata where
  tlfID : Nat
  keyGen : Nat
  deriving DecidableEq, Repr

def KeyMetadata.TlfID (kmd : KeyMetadata) : Nat := kmd.tlfID

/-- A value behind the `Block` interface: the concrete Go type (`typ`), its
decoded contents and the encoded size field (a `uint32` in the source). -/
structure Block where
  typ : Nat
  payload : List Nat
  encodedSize : Nat
  deriving DecidableEq, Repr

/-- The value `reflect.New(typ)` points to: the zero value of the type. -/
def Block.zero (typ : Nat) : Block := ⟨typ, [], 0⟩

/-- Go conversion `uint32(n)` of a non-negative `int`. -/
def uint32 (n : Nat) : Nat := n % 2 ^ 32

/-- The method `SetEncodedSize(size uint32)`. -/
def Block.SetEncodedSize (b : Block) (size : Nat) : Block :=
  { b with encodedSize := size }

/-! ## `realBlockGetter.getBlock` -/

/-- The collaborators reached through `bg.config`; each field is the behaviour
of one interface method.  `DecryptBlock` writes into the destination block and
returns an error, so it yields the block it leaves behind as well. -/
structure Config where
  Get : Context → Nat → Nat → Nat → Except GoError (List Byte × Nat)
  VerifyBlockID : List Byte → Nat → Option GoError
  GetTLFCryptKeyForBlockDecryption :
    Context → KeyMetadata → BlockPointer → Except GoError Nat
  UnmaskBlockCryptKey : Nat → Nat → Except GoError Nat
  Decode : List Byte → Except GoError (List Byte)
  DecryptBlock : List Byte → Nat → Block → Block × Option GoError

/-- The collaborator calls `getBlock` makes, in the order it makes them. -/
inductive Step where
  | Get
  | VerifyBlockID
  | GetTLFCryptKeyForBlockDecryption
  | UnmaskBlockCryptKey
  | Decode
  | DecryptBlock
  | SetEncodedSize (size : Nat)
  deriving DecidableEq, Repr

structure GetBlockResult where
  calls : List Step
  block : Block
  outcome : Outcome
  deriving DecidableEq, Repr

/-- The message of the panic in `getBlock`:
`fmt.Sprintf("Bad BServer request detected: err=%s, blockPtr=%s", err, blockPtr)`.
`showPtr` is the `String()` rendering of a block pointer. -/
def badRequestMessage (showPtr : BlockPointer → String) (err : GoError)
    (blockPtr : BlockPointer) : String :=
  "Bad BServer request detected: err=" ++ err.Error ++ ", blockPtr=" ++ showPtr blockPtr

/-- The method `realBlockGetter.getBlock`. -/
def getBlock (config : Config) (showPtr : BlockPointer → String) (ctx : Context)
    (kmd : KeyMetadata) (blockPtr : BlockPointer) (block : Block) : GetBlockResult :=
  match config.Get ctx kmd.TlfID blockPtr.ID blockPtr.BlockContext with
  | .error err =>
    if err.isBadRequest then
      ⟨[.Get], block, .panicked (badRequestMessage showPtr err blockPtr)⟩
    else
      ⟨[.Get], block, .returned (some err)⟩
  | .ok (buf, blockServerHalf) =>
    match config.VerifyBlockID buf blockPtr.ID with
    | some err => ⟨[.Get, .VerifyBlockID], block, .returned (some err)⟩
    | none =>
      match config.GetTLFCryptKeyForBlockDecryption ctx kmd blockPtr with
      | .error err =>
        ⟨[.Get, .VerifyBlockID, .GetTLFCryptKeyForBlockDecryption], block,
          .returned (some err)⟩
      | .ok tlfCryptKey =>
        match config.UnmaskBlockCryptKey blockServerHalf tlfCryptKey with
        | .error err =>
          ⟨[.Get, .VerifyBlockID, .GetTLFCryptKeyForBlockDecryption,
            .UnmaskBlockCryptKey], block, .returned (some err)⟩
        | .ok blockCryptKey =>
          match config.Decode buf with
          | .error err =>
            ⟨[.Get, .VerifyBlockID, .GetTLFCryptKeyForBlockDecryption,
              .UnmaskBlockCryptKey, .Decode], block, .returned (some err)⟩
          | .ok encryptedBlock =>
            match config.DecryptBlock encryptedBlock blockCryptKey block with
            | (block1, some err) =>
              ⟨[.Get, .VerifyBlockID, .GetTLFCryptKeyForBlockDecryption,
                .UnmaskBlockCryptKey, .Decode, .DecryptBlock], block1,
                .returned (some err)⟩
            | (block1, none) =>
              ⟨[.Get, .VerifyBlockID, .GetTLFCryptKeyForBlockDecryption,
                .UnmaskBlockCryptKey, .Decode, .DecryptBlock,
                .SetEncodedSize (uint32 buf.length)],
                block1.SetEncodedSize (uint32 buf.length), .returned none⟩

/-! ## The retrieval worker -/

/-- A `blockRetrievalRequest`: `id` is the identity of the request object,
`block` the value its destination pointer refers to. -/
structure blockRetrievalRequest where
  id : Nat
  ctx : Ctx
  block : Block
  deriving DecidableEq, Repr

/-- A `blockRetrieval` as handed out by the queue. -/
structure blockRetrieval where
  blockPtr : BlockPointer
  kmd : KeyMetadata
  requests : List blockRetrievalRequest
  deriving DecidableEq, Repr

/-- The embedded interface `blockGetter`: given the arguments of `getBlock`,
the block it leaves behind the `Block` pointer and how the call ends. -/
abbrev blockGetter := Context → KeyMetadata → BlockPointer → Block → Block × Outcome

/-- The getter `realBlockGetter` seen through the `blockGetter` interface. -/
def realBlockGetter (config : Config) (showPtr : BlockPointer → String) : blockGetter :=
  fun ctx kmd blockPtr block =>
    let r := getBlock config showPtr ctx kmd blockPtr block
    (r.block, r.outcome)

/-- What the worker does to the outside, in program order. -/
inductive Event where
  | getBlock (ctx : Context) (kmd : KeyMetadata) (blockPtr : BlockPointer) (block : Block)
  | FinalizeRequest (blockPtr : BlockPointer)
  | goNotify (req : blockRetrievalRequest) (source : Block) (err : Option GoError)
  deriving DecidableEq, Repr

def Event.isGetBlock : Event → Bool
  | .getBlock _ _ _ _ => true
  | _ => false

def Event.isFinalizeRequest : Event → Bool
  | .FinalizeRequest _ => true
  | _ => false

def Event.isGoNotify : Event → Bool
  | .goNotify _ _ _ => true
  | _ => false

/-- What a finished `notifyBlockRequestor` goroutine leaves: the request with
its destination block as written, and the value sent on `doneCh`. -/
structure Delivery where
  req : blockRetrievalRequest
  sent : Option GoError
  deriving DecidableEq, Repr

/-- The function `notifyBlockRequestor`.  `dest.Set(source)` panics unless the
source value is assignable to the destination type. -/
def notifyBlockRequestor (req : blockRetrievalRequest) (source : Block)
    (err : Option GoError) : Except String Delivery :=
  if source.typ = req.block.typ then
    .ok ⟨{ req with block := source }, err⟩
  else
    .error "reflect.Set: value is not assignable to type"

/-- The method `finalizeRetrieval`: one `FinalizeRequest` on the queue, then one
`go notifyBlockRequestor(req, sourceVal, err)` per subscribed request. -/
def finalizeRetrieval (retrieval : blockRetrieval) (block : Block)
    (err : Option GoError) : List Event :=
  .FinalizeRequest retrieval.blockPtr ::
    retrieval.requests.map (fun req => .goNotify req block err)

/-- One iteration of the scan loop of `HandleRequest`.  The `break` sits inside
the `select` statement and so ends the `select`, not the `for`. -/
def scanStep (st : Context × Bool) (req : blockRetrievalRequest) : Context × Bool :=
  if req.ctx.done then st else (some req.ctx, false)

/-- The scan loop of `HandleRequest`: the final `(ctx, canceled)`. -/
def scanRequests (requests : List blockRetrievalRequest) : Context × Bool :=
  requests.foldl scanStep (none, true)

structure HandleResult where
  trace : List Event
  outcome : Outcome
  deriving DecidableEq, Repr

/-- The body of `HandleRequest` after the `defer` statement: the events it
causes, the block behind the `block` pointer when it ends, and how it ends. -/
def handleBody (bg : blockGetter) (retrieval : blockRetrieval) (block : Block) :
    List Event × Block × Outcome :=
  let (ctx, canceled) := scanRequests retrieval.requests
  if canceled then
    ([], block, .returned (some .contextCanceled))
  else
    let (block1, out) := bg ctx retrieval.kmd retrieval.blockPtr block
    ([.getBlock ctx retrieval.kmd retrieval.blockPtr block], block1, out)

/-- The value of the named result `err` when the deferred function runs: what
the `return` statement stored, or still `nil` when the body panicked. -/
def deferredErr : Outcome → Option GoError
  | .returned err => err
  | .panicked _ => none

/-- The method `HandleRequest`, for the retrieval received from
`brw.queue.WorkOnRequest()`.  Indexing `retrieval.requests[0]` panics on an empty
list, before the `defer` is reached; afterwards the deferred
`finalizeRetrieval` runs however the body ends. -/
def HandleRequest (bg : blockGetter) (retrieval : blockRetrieval) : HandleResult :=
  match retrieval.requests with
  | [] => ⟨[], .panicked "index out of range"⟩
  | first :: _ =>
    let block := Block.zero first.block.typ
    let (pre, block1, out) := handleBody bg retrieval block
    ⟨pre ++ finalizeRetrieval retrieval block1 (deferredErr out), out⟩

/-- The notifications a trace spawns, in spawn order. -/
def notifications : List Event → List (blockRetrievalRequest × Block × Option GoError)
  | [] => []
  | .goNotify req source err :: rest => (req, source, err) :: notifications rest
  | _ :: rest => notifications rest

end libkbfs

namespace libkb

/-! ## `Account` and `Account.Logout` -/

/-- A `*Session`; the account only ever holds a non-nil one (`NewAccount` and
`UnloadLocalSession` are the only writers of the field). -/
structure Session where
  id : Nat
  loggedIn : Bool
  deriving DecidableEq, Repr

/-- A `*SecretSyncer`; non-nil for the same reason as the session. -/
structure SecretSyncer where
  id : Nat
  deriving DecidableEq, Repr

structure LoginSession where
  id : Nat
  deriving DecidableEq, Repr

structure PassphraseStreamCache where
  id : Nat
  deriving DecidableEq, Repr

structure SKBKeyringFile where
  id : Nat
  deriving DecidableEq, Repr

structure timedGenericKey where
  key : Option Nat
  which : String
  atime : Nat
  deriving DecidableEq, Repr

/-- The struct `Account`; a pointer field that the code sets to `nil` is an
`Option`. -/
structure Account where
  secretSyncer : SecretSyncer
  localSession : Session
  loginSession : Option LoginSession
  streamCache : Option PassphraseStreamCache
  skbKeyring : Option SKBKeyringFile
  paperSigKey : Option timedGenericKey
  paperEncKey : Option timedGenericKey
  secretPromptCanceledAt : Nat
  deriving DecidableEq, Repr

/-- What `Logout` reaches through `a.G()` and through the objects the account
points to: the result of `Logout()` on a session, the objects `newSession` and
`NewSecretSyncer` construct, and the result of `ActiveDevice.clear`. -/
structure GlobalContext where
  sessionLogout : Session → Option String
  newSession : Session
  NewSecretSyncer : SecretSyncer
  activeDeviceClear : Option String

/-- Calls `Logout` makes on other objects, in program order; a log call is
recorded by its format string. -/
inductive Call where
  | logDebug (format : String)
  | logWarning (format : String)
  | streamCacheClear (cache : Option PassphraseStreamCache)
  | sessionLogout (s : Session)
  | secretSyncerClear (s : SecretSyncer)
  | activeDeviceClear
  deriving DecidableEq, Repr

/-- The method `Account.ClearStreamCache`. -/
def Account.ClearStreamCache (a : Account) : Account × List Call :=
  ({ a with streamCache := none }, [.streamCacheClear a.streamCache])

/-- The method `Account.UnloadLocalSession`. -/
def Account.UnloadLocalSession (g : GlobalContext) (a : Account) : Account :=
  { a with localSession := g.newSession }

/-- The method `Account.ClearKeyring`. -/
def Account.ClearKeyring (a : Account) : Account :=
  { a with skbKeyring := none }

/-- The method `Account.ClearPaperKeys`. -/
def Account.ClearPaperKeys (a : Account) : Account × List Call :=
  ({ a with paperEncKey := none, paperSigKey := none },
    [.logDebug "clearing cached paper keys"])

/-- The method `Account.ClearCachedSecretKeys`. -/
def Account.ClearCachedSecretKeys (g : GlobalContext) (a : Account) : Account × List Call :=
  let (a1, c1) := a.ClearPaperKeys
  let c2 := match g.activeDeviceClear with
    | some _ => [Call.activeDeviceClear, .logWarning "error clearing ActiveDevice: %s"]
    | none => [Call.activeDeviceClear]
  (a1, .logDebug "clearing cached secret keys" :: c1 ++ c2)

structure LogoutResult where
  account : Account
  err : Option String
  calls : List Call
  deriving DecidableEq, Repr

/-- The method `Account.Logout`. -/
def Account.Logout (g : GlobalContext) (a : Account) : LogoutResult :=
  let (a1, c1) := a.ClearStreamCache
  let err := g.sessionLogout a1.localSession
  let c2 := match err with
    | some _ =>
      [Call.sessionLogout a1.localSession,
       .logDebug "error in localSession.Logout(): %s",
       .logDebug "(continuing with the rest of the logout process, but this error will be returned)"]
    | none => [Call.sessionLogout a1.localSession]
  let a2 := a1.UnloadLocalSession g
  let a3 := { a2 with loginSession := none }
  let a4 := a3.ClearKeyring
  let c3 := [Call.secretSyncerClear a4.secretSyncer]
  let a5 := { a4 with secretSyncer := g.NewSecretSyncer }
  let (a6, c4) := a5.ClearCachedSecretKeys g
  ⟨a6, err,
    .logDebug "+ Account.Logout()" :: c1 ++ c2 ++ c3 ++ c4 ++
      [.logDebug "- Account.Logout() - all clears complete, localSession.Logout() -> %s"]⟩

end libkb

/-! ## Concrete inputs -/

namespace libkbfs

def samplePtr : BlockPointer := ⟨7, 1⟩

def sampleKmd : KeyMetadata := ⟨3, 1⟩

/-- A subscriber with a live context and an empty destination of type 0. -/
def liveReqA : blockRetrievalRequest := ⟨1, ⟨10, false⟩, Block.zero 0⟩

/-- A second subscriber with a live context. -/
def liveReqB : blockRetrievalRequest := ⟨2, ⟨20, false⟩, Block.zero 0⟩

/-- A subscriber whose context is canceled and whose destination already holds
data. -/
def canceledReq : blockRetrievalRequest := ⟨3, ⟨30, true⟩, ⟨0, [1, 2, 3], 3⟩⟩

def twoLive : blockRetrieval := ⟨samplePtr, sampleKmd, [liveReqA, liveReqB]⟩

def mixed : blockRetrieval := ⟨samplePtr, sampleKmd, [canceledReq, liveReqA]⟩

def allCanceled : blockRetrieval := ⟨samplePtr, sampleKmd, [canceledReq]⟩

/-- A getter that fills the block with fixed contents and succeeds. -/
def okGetter : blockGetter :=
  fun _ _ _ block => ({ block with payload := [9, 9], encodedSize := 2 }, .returned none)

/-- A getter that writes into the block and then fails. -/
def failingGetter : blockGetter :=
  fun _ _ _ block => ({ block with payload := [7] }, .returned (some (.other "fetch failed")))

/-- Collaborators that all succeed on a four-byte buffer. -/
def okConfig : Config where
  Get := fun _ _ _ _ => .ok ([1, 2, 3, 4], 5)
  VerifyBlockID := fun _ _ => none
  GetTLFCryptKeyForBlockDecryption := fun _ _ _ => .ok 6
  UnmaskBlockCryptKey := fun half key => .ok (half + key)
  Decode := fun buf => .ok buf
  DecryptBlock := fun enc _ block => ({ block with payload := enc.map Fin.val }, none)

/-- Collaborators that all succeed, the block server returning a buffer of
`2 ^ 32` bytes. -/
def hugeConfig : Config where
  Get := fun _ _ _ _ => .ok (List.replicate 4294967296 0, 5)
  VerifyBlockID := fun _ _ => none
  GetTLFCryptKeyForBlockDecryption := fun _ _ _ => .ok 6
  UnmaskBlockCryptKey := fun half key => .ok (half + key)
  Decode := fun _ => .ok []
  DecryptBlock := fun _ _ block => (block, none)

def showPtrSample : BlockPointer → String := fun _ => "ptr"

end libkbfs

namespace libkb

def sampleAccount : Account where
  secretSyncer := ⟨1⟩
  localSession := ⟨1, true⟩
  loginSession := some ⟨1⟩
  streamCache := some ⟨1⟩
  skbKeyring := some ⟨1⟩
  paperSigKey := some ⟨some 1, "sig", 0⟩
  paperEncKey := some ⟨some 2, "enc", 0⟩
  secretPromptCanceledAt := 0

/-- A global context in which the session's `Logout` fails. -/
def failingGlobal : GlobalContext where
  sessionLogout := fun _ => some "logout failed"
  newSession := ⟨2, false⟩
  NewSecretSyncer := ⟨2⟩
  activeDeviceClear := none

end libkb

/-! ## The scan loop -/

namespace libkbfs

theorem scan_foldl_all_done (requests : List blockRetrievalRequest) (st : Context × Bool)
    (hall : ∀ req ∈ requests, req.ctx.done = true) :
    requests.foldl scanStep st = st := by
  induction requests generalizing st with
  | nil => rfl
  | cons r rs ih =>
    have hr : r.ctx.done = true := hall r (List.mem_cons_self r rs)
    have hrs : ∀ req ∈ rs, req.ctx.done = true :=
      fun req hq => hall req (List.mem_cons_of_mem r hq)
    simp [List.foldl_cons, scanStep, hr, ih _ hrs]

theorem scan_foldl_from_live (requests : List blockRetrievalRequest) (c : Ctx) :
    requests.foldl scanStep (some c, false) = (some c, false) ∨
    ∃ req ∈ requests, req.ctx.done = false ∧
      requests.foldl scanStep (some c, false) = (some req.ctx, false) := by
  induction requests generalizing c with
  | nil => exact Or.inl rfl
  | cons r rs ih =>
    by_cases hr : r.ctx.done = true
    · rcases ih c with h | ⟨q, hq, hd, h⟩
      · left
        simpa [List.foldl_cons, scanStep, hr] using h
      · right
        exact ⟨q, List.mem_cons_of_mem r hq, hd, by simpa [List.foldl_cons, scanStep, hr] using h⟩
    · have hr2 : r.ctx.done = false := by simpa using hr
      right
      rcases ih r.ctx with h | ⟨q, hq, hd, h⟩
      · exact ⟨r, List.mem_cons_self r rs, hr2, by simpa [List.foldl_cons, scanStep, hr2] using h⟩
      · exact ⟨q, List.mem_cons_of_mem r hq, hd, by simpa [List.foldl_cons, scanStep, hr2] using h⟩

theorem scan_foldl_some_live (requests : List blockRetrievalRequest) (st : Context × Bool)
    (hlive : ∃ req ∈ requests, req.ctx.done = false) :
    ∃ req ∈ requests, req.ctx.done = false ∧
      requests.foldl scanStep st = (some req.ctx, false) := by
  induction requests generalizing st with
  | nil => obtain ⟨q, hq, _⟩ := hlive; cases hq
  | cons r rs ih =>
    by_cases hr : r.ctx.done = true
    · have hrest : ∃ req ∈ rs, req.ctx.done = false := by
        obtain ⟨q, hq, hd⟩ := hlive
        rcases List.mem_cons.mp hq with rfl | hq2
        · rw [hr] at hd; cases hd
        · exact ⟨q, hq2, hd⟩
      obtain ⟨q, hq, hd, h⟩ := ih st hrest
      exact ⟨q, List.mem_cons_of_mem r hq, hd, by simpa [List.foldl_cons, scanStep, hr] using h⟩
    · have hr2 : r.ctx.done = false := by simpa using hr
      rcases scan_foldl_from_live rs r.ctx with h | ⟨q, hq, hd, h⟩
      · exact ⟨r, List.mem_cons_self r rs, hr2, by simpa [List.foldl_cons, scanStep, hr2] using h⟩
      · exact ⟨q, List.mem_cons_of_mem r hq, hd, by simpa [List.foldl_cons, scanStep, hr2] using h⟩

theorem scanRequests_all_done (requests : List blockRetrievalRequest)
    (hall : ∀ req ∈ requests, req.ctx.done = true) :
    scanRequests requests = (none, true) :=
  scan_foldl_all_done requests (none, true) hall

theorem scanRequests_some_live (requests : List blockRetrievalRequest)
    (hlive : ∃ req ∈ requests, req.ctx.done = false) :
    ∃ req ∈ requests, req.ctx.done = false ∧
      scanRequests requests = (some req.ctx, false) :=
  scan_foldl_some_live requests (none, true) hlive

end libkbfs

/-! ## Shape of a `HandleRequest` run -/

namespace libkbfs

theorem notifications_map_goNotify (requests : List blockRetrievalRequest) (block : Block)
    (err : Option GoError) :
    notifications (requests.map (fun req => Event.goNotify req block err)) =
      requests.map (fun req => (req, block, err)) := by
  induction requests with
  | nil => rfl
  | cons r rs ih => simp [notifications, ih]

theorem notifications_finalizeRetrieval (retrieval : blockRetrieval) (block : Block)
    (err : Option GoError) :
    notifications (finalizeRetrieval retrieval block err) =
      retrieval.requests.map (fun req => (req, block, err)) := by
  simp [finalizeRetrieval, notifications, notifications_map_goNotify]

theorem filter_isGetBlock_finalizeRetrieval (retrieval : blockRetrieval) (block : Block)
    (err : Option GoError) :
    (finalizeRetrieval retrieval block err).filter Event.isGetBlock = [] := by
  simp only [finalizeRetrieval, List.filter_eq_nil_iff]
  intro ev hev
  rcases List.mem_cons.mp hev with rfl | hev
  · simp [Event.isGetBlock]
  · obtain ⟨q, _, rfl⟩ := List.mem_map.mp hev
    simp [Event.isGetBlock]

theorem filter_isFinalizeRequest_finalizeRetrieval (retrieval : blockRetrieval) (block : Block)
    (err : Option GoError) :
    (finalizeRetrieval retrieval block err).filter Event.isFinalizeRequest =
      [.FinalizeRequest retrieval.blockPtr] := by
  have h : (retrieval.requests.map (fun req => Event.goNotify req block err)).filter
      Event.isFinalizeRequest = [] := by
    simp only [List.filter_eq_nil_iff]
    intro ev hev
    obtain ⟨q, _, rfl⟩ := List.mem_map.mp hev
    simp [Event.isFinalizeRequest]
  simp [finalizeRetrieval, List.filter_cons, Event.isFinalizeRequest, h]

theorem HandleRequest_canceled_eq (bg : blockGetter) (retrieval : blockRetrieval)
    (first : blockRetrievalRequest) (rest : List blockRetrievalRequest)
    (hreq : retrieval.requests = first :: rest)
    (hscan : scanRequests retrieval.requests = (none, true)) :
    HandleRequest bg retrieval =
      ⟨finalizeRetrieval retrieval (Block.zero first.block.typ) (some .contextCanceled),
        .returned (some .contextCanceled)⟩ := by
  unfold HandleRequest
  rw [hreq]
  simp only [handleBody, hscan]
  simp [deferredErr]

theorem HandleRequest_live_eq (bg : blockGetter) (retrieval : blockRetrieval)
    (first : blockRetrievalRequest) (rest : List blockRetrievalRequest) (c : Ctx)
    (hreq : retrieval.requests = first :: rest)
    (hscan : scanRequests retrieval.requests = (some c, false)) :
    HandleRequest bg retrieval =
      ⟨.getBlock (some c) retrieval.kmd retrieval.blockPtr (Block.zero first.block.typ) ::
          finalizeRetrieval retrieval
            (bg (some c) retrieval.kmd retrieval.blockPtr (Block.zero first.block.typ)).1
            (deferredErr
              (bg (some c) retrieval.kmd retrieval.blockPtr (Block.zero first.block.typ)).2),
        (bg (some c) retrieval.kmd retrieval.blockPtr (Block.zero first.block.typ)).2⟩ := by
  unfold HandleRequest
  rw [hreq]
  simp only [handleBody, hscan]
  simp

/-- Every run of `HandleRequest` on a non-empty subscriber list is one of the two
shapes: all-canceled, or one `getBlock` call with a live subscriber context. -/
theorem HandleRequest_cases (bg : blockGetter) (retrieval : blockRetrieval)
    (first : blockRetrievalRequest) (rest : List blockRetrievalRequest)
    (hreq : retrieval.requests = first :: rest) :
    ((∀ req ∈ retrieval.requests, req.ctx.done = true) ∧
      HandleRequest bg retrieval =
        ⟨finalizeRetrieval retrieval (Block.zero first.block.typ) (some .contextCanceled),
          .returned (some .contextCanceled)⟩) ∨
    (∃ req ∈ retrieval.requests, req.ctx.done = false ∧
      HandleRequest bg retrieval =
        ⟨.getBlock (some req.ctx) retrieval.kmd retrieval.blockPtr
            (Block.zero first.block.typ) ::
            finalizeRetrieval retrieval
              (bg (some req.ctx) retrieval.kmd retrieval.blockPtr
                (Block.zero first.block.typ)).1
              (deferredErr (bg (some req.ctx) retrieval.kmd retrieval.blockPtr
                (Block.zero first.block.typ)).2),
          (bg (some req.ctx) retrieval.kmd retrieval.blockPtr
            (Block.zero first.block.typ)).2⟩) := by
  by_cases hall : ∀ req ∈ retrieval.requests, req.ctx.done = true
  · exact Or.inl ⟨hall, HandleRequest_canceled_eq bg retrieval first rest hreq
      (scanRequests_all_done _ hall)⟩
  · right
    have hlive : ∃ req ∈ retrieval.requests, req.ctx.done = false := by
      by_contra hno
      apply hall
      intro req hq
      by_contra hd
      exact hno ⟨req, hq, by simpa using hd⟩
    obtain ⟨q, hq, hd, hs⟩ := scanRequests_some_live _ hlive
    exact ⟨q, hq, hd, HandleRequest_live_eq bg retrieval first rest q.ctx hreq hs⟩

end libkbfs

/-! ## Claims about the retrieval worker -/

namespace libkbfs

/-- C1: when the subscriber list is non-empty and every subscriber's context is
already canceled at scan time, `HandleRequest` returns `context.Canceled`, its
trace holds no `getBlock` call, and the run does not depend on the getter. -/
theorem HandleRequest_all_canceled (bg : blockGetter) (retrieval : blockRetrieval)
    (hne : retrieval.requests ≠ [])
    (hall : ∀ req ∈ retrieval.requests, req.ctx.done = true) :
    (HandleRequest bg retrieval).outcome = .returned (some .contextCanceled) ∧
    (HandleRequest bg retrieval).trace.filter Event.isGetBlock = [] ∧
    ∀ bg2 : blockGetter, HandleRequest bg2 retrieval = HandleRequest bg retrieval := by
  obtain ⟨first, rest, hreq⟩ := List.exists_cons_of_ne_nil hne
  have hs := scanRequests_all_done _ hall
  have h := HandleRequest_canceled_eq bg retrieval first rest hreq hs
  refine ⟨by rw [h], ?_, ?_⟩
  · rw [h]
    exact filter_isGetBlock_finalizeRetrieval _ _ _
  · intro bg2
    rw [h, HandleRequest_canceled_eq bg2 retrieval first rest hreq hs]

theorem HandleRequest_all_canceled_witness :
    allCanceled.requests ≠ [] ∧
    (∀ req ∈ allCanceled.requests, req.ctx.done = true) ∧
    (HandleRequest okGetter allCanceled).outcome = .returned (some .contextCanceled) ∧
    (HandleRequest okGetter allCanceled).trace.filter Event.isGetBlock = [] :=
  ⟨by decide, by decide,
    (HandleRequest_all_canceled okGetter allCanceled (by decide) (by decide)).1,
    (HandleRequest_all_canceled okGetter allCanceled (by decide) (by decide)).2.1⟩

/-- C2 (evaluation at the failing input): with two live subscribers A then B, the
first live subscriber in list order is A, yet the single `getBlock` call receives
the context of B, the last live subscriber. -/
theorem HandleRequest_passes_last_live_ctx :
    twoLive.requests.find? (fun req => !req.ctx.done) = some liveReqA ∧
    (HandleRequest okGetter twoLive).trace.filter Event.isGetBlock =
      [.getBlock (some liveReqB.ctx) sampleKmd samplePtr (Block.zero 0)] ∧
    liveReqB.ctx ≠ liveReqA.ctx := by
  decide

/-- C3: when at least one subscriber's context is live at scan time,
`HandleRequest` calls `getBlock` exactly once, with the retrieval's key metadata
and block pointer and with the context of a subscriber that is live at scan
time. -/
theorem HandleRequest_one_getBlock (bg : blockGetter) (retrieval : blockRetrieval)
    (hlive : ∃ req ∈ retrieval.requests, req.ctx.done = false) :
    ∃ req ∈ retrieval.requests, req.ctx.done = false ∧ ∃ block,
      (HandleRequest bg retrieval).trace.filter Event.isGetBlock =
        [.getBlock (some req.ctx) retrieval.kmd retrieval.blockPtr block] := by
  have hne : retrieval.requests ≠ [] := by
    obtain ⟨q, hq, _⟩ := hlive
    exact List.ne_nil_of_mem hq
  obtain ⟨first, rest, hreq⟩ := List.exists_cons_of_ne_nil hne
  rcases HandleRequest_cases bg retrieval first rest hreq with ⟨hall, _⟩ | ⟨q, hq, hd, h⟩
  · obtain ⟨q, hq, hd⟩ := hlive
    rw [hall q hq] at hd
    cases hd
  · refine ⟨q, hq, hd, Block.zero first.block.typ, ?_⟩
    rw [h]
    simp [List.filter_cons, Event.isGetBlock, filter_isGetBlock_finalizeRetrieval]

theorem HandleRequest_one_getBlock_witness :
    ∃ req ∈ mixed.requests, req.ctx.done = false ∧ ∃ block,
      (HandleRequest okGetter mixed).trace.filter Event.isGetBlock =
        [.getBlock (some req.ctx) mixed.kmd mixed.blockPtr block] :=
  HandleRequest_one_getBlock okGetter mixed ⟨liveReqA, by decide, by decide⟩

/-- C4: whenever `HandleRequest` returns (all-canceled, fetch error or success)
and the subscriber list has no repeated request object, the spawned
notifications are the subscriber list mapped with one shared value and the
returned error, so each request is notified exactly once. -/
theorem HandleRequest_fanout (bg : blockGetter) (retrieval : blockRetrieval)
    (err : Option GoError)
    (hret : (HandleRequest bg retrieval).outcome = .returned err)
    (hnodup : (retrieval.requests.map (fun req => req.id)).Nodup) :
    ∃ value,
      notifications (HandleRequest bg retrieval).trace =
        retrieval.requests.map (fun req => (req, value, err)) ∧
      ∀ req ∈ retrieval.requests,
        ((notifications (HandleRequest bg retrieval).trace).map
          (fun n => n.1.id)).count req.id = 1 := by
  have hne : retrieval.requests ≠ [] := by
    intro hnil
    simp [HandleRequest, hnil] at hret
  obtain ⟨first, rest, hreq⟩ := List.exists_cons_of_ne_nil hne
  have key : ∃ value, notifications (HandleRequest bg retrieval).trace =
      retrieval.requests.map (fun req => (req, value, err)) := by
    rcases HandleRequest_cases bg retrieval first rest hreq with ⟨_, h⟩ | ⟨q, _, _, h⟩
    · rw [h] at hret ⊢
      simp only [Outcome.returned.injEq] at hret
      exact ⟨Block.zero first.block.typ, by rw [notifications_finalizeRetrieval, hret]⟩
    · rw [h] at hret ⊢
      simp only at hret
      refine ⟨(bg (some q.ctx) retrieval.kmd retrieval.blockPtr
        (Block.zero first.block.typ)).1, ?_⟩
      show notifications (finalizeRetrieval retrieval _ _) = _
      rw [notifications_finalizeRetrieval, hret]
      rfl
  obtain ⟨value, hv⟩ := key
  refine ⟨value, hv, ?_⟩
  intro req hq
  rw [hv, List.map_map]
  exact List.count_eq_one_of_mem hnodup (List.mem_map.mpr ⟨req, hq, rfl⟩)

theorem HandleRequest_fanout_witness :
    ∃ value,
      notifications (HandleRequest okGetter mixed).trace =
        mixed.requests.map (fun req => (req, value, none)) ∧
      ∀ req ∈ mixed.requests,
        ((notifications (HandleRequest okGetter mixed).trace).map
          (fun n => n.1.id)).count req.id = 1 :=
  HandleRequest_fanout okGetter mixed none (by decide) (by decide)

end libkbfs

namespace libkbfs

/-- C9: `finalizeRetrieval` issues exactly one `FinalizeRequest`, for the
retrieval's own block pointer, as its first event, everything after it being a
notification spawn, one per subscriber.  For every getter and every retrieval
with a subscriber, the trace of `HandleRequest` is at most one `getBlock` call
followed by the events of one `finalizeRetrieval` run on the error the deferred
call sees, which is the returned error on every return path; so the trace holds
exactly one `FinalizeRequest`.  The return paths are there: all-canceled returns
`context.Canceled`, and otherwise `HandleRequest` ends as the getter ends. -/
theorem finalizeRetrieval_once_per_return (bg : blockGetter) (retrieval : blockRetrieval)
    (hne : retrieval.requests ≠ []) :
    (∀ (block : Block) (err : Option GoError),
      (finalizeRetrieval retrieval block err).filter Event.isFinalizeRequest =
        [.FinalizeRequest retrieval.blockPtr] ∧
      ∃ rest, finalizeRetrieval retrieval block err =
          .FinalizeRequest retrieval.blockPtr :: rest ∧
        rest.length = retrieval.requests.length ∧
        ∀ ev ∈ rest, ev.isGoNotify = true) ∧
    (HandleRequest bg retrieval).trace.filter Event.isFinalizeRequest =
      [.FinalizeRequest retrieval.blockPtr] ∧
    (∃ pre block, (HandleRequest bg retrieval).trace =
        pre ++ finalizeRetrieval retrieval block
          (deferredErr (HandleRequest bg retrieval).outcome) ∧
      pre.length ≤ 1 ∧ ∀ ev ∈ pre, ev.isGetBlock = true) ∧
    (∀ err, (HandleRequest bg retrieval).outcome = .returned err →
      deferredErr (HandleRequest bg retrieval).outcome = err) ∧
    ((∀ req ∈ retrieval.requests, req.ctx.done = true) →
      (HandleRequest bg retrieval).outcome = .returned (some .contextCanceled)) ∧
    ((∃ req ∈ retrieval.requests, req.ctx.done = false) →
      ∃ req ∈ retrieval.requests, req.ctx.done = false ∧
        ∀ first ∈ retrieval.requests.head?,
          (HandleRequest bg retrieval).outcome =
            (bg (some req.ctx) retrieval.kmd retrieval.blockPtr
              (Block.zero first.block.typ)).2) := by
  obtain ⟨first, rest, hreq⟩ := List.exists_cons_of_ne_nil hne
  have hfirst : ∀ f ∈ retrieval.requests.head?, f = first := by
    intro f hf
    rw [hreq] at hf
    simp only [List.head?_cons, Option.mem_def, Option.some.injEq] at hf
    exact hf.symm
  refine ⟨?_, ?_, ?_, ?_, ?_, ?_⟩
  · intro block err
    refine ⟨filter_isFinalizeRequest_finalizeRetrieval _ _ _,
      retrieval.requests.map (fun req => .goNotify req block err), rfl, by simp, ?_⟩
    intro ev hev
    obtain ⟨q, _, rfl⟩ := List.mem_map.mp hev
    rfl
  · rcases HandleRequest_cases bg retrieval first rest hreq with ⟨_, h⟩ | ⟨q, _, _, h⟩
    · rw [h]
      exact filter_isFinalizeRequest_finalizeRetrieval _ _ _
    · rw [h]
      simp only [List.filter_cons, Event.isFinalizeRequest]
      exact filter_isFinalizeRequest_finalizeRetrieval _ _ _
  · rcases HandleRequest_cases bg retrieval first rest hreq with ⟨_, h⟩ | ⟨q, _, _, h⟩
    · rw [h]
      exact ⟨[], Block.zero first.block.typ, rfl, by simp, by simp⟩
    · rw [h]
      refine ⟨[.getBlock (some q.ctx) retrieval.kmd retrieval.blockPtr
        (Block.zero first.block.typ)],
        (bg (some q.ctx) retrieval.kmd retrieval.blockPtr (Block.zero first.block.typ)).1,
        rfl, by simp, ?_⟩
      intro ev hev
      rw [List.mem_singleton.mp hev]
      rfl
  · intro err he
    rw [he]
    rfl
  · intro hall
    rw [HandleRequest_canceled_eq bg retrieval first rest hreq (scanRequests_all_done _ hall)]
  · intro hlive
    obtain ⟨q, hq, hd, hs⟩ := scanRequests_some_live _ hlive
    refine ⟨q, hq, hd, ?_⟩
    intro f hf
    rw [hfirst f hf, HandleRequest_live_eq bg retrieval first rest q.ctx hreq hs]

theorem finalizeRetrieval_once_per_return_witness :
    mixed.requests ≠ [] ∧
    (HandleRequest failingGetter mixed).trace.filter Event.isFinalizeRequest =
      [.FinalizeRequest mixed.blockPtr] ∧
    (∃ pre block, (HandleRequest failingGetter mixed).trace =
        pre ++ finalizeRetrieval mixed block
          (deferredErr (HandleRequest failingGetter mixed).outcome) ∧
      pre.length ≤ 1 ∧ ∀ ev ∈ pre, ev.isGetBlock = true) ∧
    (HandleRequest failingGetter mixed).outcome = .returned (some (.other "fetch failed")) :=
  ⟨by decide,
    (finalizeRetrieval_once_per_return failingGetter mixed (by decide)).2.1,
    (finalizeRetrieval_once_per_return failingGetter mixed (by decide)).2.2.1,
    by decide⟩

/-- C8 (refutation as stated): it is not the case that on every error outcome
each notification leaves the subscriber's destination block as supplied; a
canceled subscriber holding data has its destination overwritten. -/
theorem destination_overwritten_on_error :
    ¬ (∀ (bg : blockGetter) (retrieval : blockRetrieval) (err : GoError),
        (HandleRequest bg retrieval).outcome = .returned (some err) →
        ∀ n ∈ notifications (HandleRequest bg retrieval).trace, ∀ d : Delivery,
          notifyBlockRequestor n.1 n.2.1 n.2.2 = .ok d → d.req.block = n.1.block) := by
  intro h
  have hbad := h okGetter allCanceled .contextCanceled (by decide)
    (canceledReq, Block.zero 0, some .contextCanceled) (by decide)
    ⟨{ canceledReq with block := Block.zero 0 }, some .contextCanceled⟩ rfl
  revert hbad
  decide

/-- C8 (amended): for every getter and every retrieval with a subscriber, the
fan-out spawns one notification per subscriber, all carrying one shared block
value and the error the deferred call sees (the returned error on every return
path, an error outcome included); run on a destination of that value's type, a
subscriber's notification overwrites the destination with the shared value and
sends the error.  The shared value is the zero value of the first subscriber's
block type when every subscriber is canceled, and otherwise the block the getter
left behind. -/
theorem fanout_copies_on_every_outcome (bg : blockGetter) (retrieval : blockRetrieval)
    (hne : retrieval.requests ≠ []) :
    ∃ value,
      notifications (HandleRequest bg retrieval).trace =
        retrieval.requests.map
          (fun req => (req, value, deferredErr (HandleRequest bg retrieval).outcome)) ∧
      (∀ req ∈ retrieval.requests,
        (req, value, deferredErr (HandleRequest bg retrieval).outcome) ∈
          notifications (HandleRequest bg retrieval).trace ∧
        (value.typ = req.block.typ →
          notifyBlockRequestor req value (deferredErr (HandleRequest bg retrieval).outcome) =
            .ok ⟨{ req with block := value },
              deferredErr (HandleRequest bg retrieval).outcome⟩)) ∧
      (∀ err, (HandleRequest bg retrieval).outcome = .returned err →
        deferredErr (HandleRequest bg retrieval).outcome = err) ∧
      ((∀ req ∈ retrieval.requests, req.ctx.done = true) →
        (HandleRequest bg retrieval).outcome = .returned (some .contextCanceled) ∧
        ∀ first ∈ retrieval.requests.head?, value = Block.zero first.block.typ) ∧
      ((∃ req ∈ retrieval.requests, req.ctx.done = false) →
        ∃ req ∈ retrieval.requests, req.ctx.done = false ∧
          ∀ first ∈ retrieval.requests.head?,
            value = (bg (some req.ctx) retrieval.kmd retrieval.blockPtr
              (Block.zero first.block.typ)).1 ∧
            (HandleRequest bg retrieval).outcome =
              (bg (some req.ctx) retrieval.kmd retrieval.blockPtr
                (Block.zero first.block.typ)).2) := by
  obtain ⟨first, rest, hreq⟩ := List.exists_cons_of_ne_nil hne
  have hfirst : ∀ f ∈ retrieval.requests.head?, f = first := by
    intro f hf
    rw [hreq] at hf
    simp only [List.head?_cons, Option.mem_def, Option.some.injEq] at hf
    exact hf.symm
  have hret : ∀ err, (HandleRequest bg retrieval).outcome = .returned err →
      deferredErr (HandleRequest bg retrieval).outcome = err := by
    intro err he
    rw [he]
    rfl
  have hwrite : ∀ (value : Block) (e : Option GoError) (req : blockRetrievalRequest),
      value.typ = req.block.typ →
      notifyBlockRequestor req value e = .ok ⟨{ req with block := value }, e⟩ := by
    intro value e req ht
    simp [notifyBlockRequestor, ht]
  rcases HandleRequest_cases bg retrieval first rest hreq with ⟨hall, h⟩ | ⟨q, hq, hd, h⟩
  · have hn : notifications (HandleRequest bg retrieval).trace =
        retrieval.requests.map (fun req => (req, Block.zero first.block.typ,
          deferredErr (HandleRequest bg retrieval).outcome)) := by
      rw [h]
      exact notifications_finalizeRetrieval _ _ _
    refine ⟨Block.zero first.block.typ, hn, ?_, hret, ?_, ?_⟩
    · intro req hreqmem
      refine ⟨?_, hwrite _ _ req⟩
      rw [hn]
      exact List.mem_map.mpr ⟨req, hreqmem, rfl⟩
    · intro _
      refine ⟨by rw [h], ?_⟩
      intro f hf
      rw [hfirst f hf]
    · rintro ⟨r, hr, hrd⟩
      rw [hall r hr] at hrd
      cases hrd
  · have hn : notifications (HandleRequest bg retrieval).trace =
        retrieval.requests.map (fun req => (req,
          (bg (some q.ctx) retrieval.kmd retrieval.blockPtr (Block.zero first.block.typ)).1,
          deferredErr (HandleRequest bg retrieval).outcome)) := by
      rw [h]
      exact notifications_finalizeRetrieval _ _ _
    refine ⟨(bg (some q.ctx) retrieval.kmd retrieval.blockPtr
      (Block.zero first.block.typ)).1, hn, ?_, hret, ?_, ?_⟩
    · intro req hreqmem
      refine ⟨?_, hwrite _ _ req⟩
      rw [hn]
      exact List.mem_map.mpr ⟨req, hreqmem, rfl⟩
    · intro hall
      rw [hall q hq] at hd
      cases hd
    · intro _
      refine ⟨q, hq, hd, ?_⟩
      intro f hf
      rw [hfirst f hf, h]
      exact ⟨rfl, rfl⟩

theorem fanout_copies_on_every_outcome_witness :
    mixed.requests ≠ [] ∧
    (HandleRequest failingGetter mixed).outcome = .returned (some (.other "fetch failed")) ∧
    ∃ value,
      notifications (HandleRequest failingGetter mixed).trace =
        mixed.requests.map
          (fun req => (req, value, deferredErr (HandleRequest failingGetter mixed).outcome)) ∧
      (∀ req ∈ mixed.requests,
        (req, value, deferredErr (HandleRequest failingGetter mixed).outcome) ∈
          notifications (HandleRequest failingGetter mixed).trace ∧
        (value.typ = req.block.typ →
          notifyBlockRequestor req value
              (deferredErr (HandleRequest failingGetter mixed).outcome) =
            .ok ⟨{ req with block := value },
              deferredErr (HandleRequest failingGetter mixed).outcome⟩)) ∧
      (∀ err, (HandleRequest failingGetter mixed).outcome = .returned err →
        deferredErr (HandleRequest failingGetter mixed).outcome = err) ∧
      ((∀ req ∈ mixed.requests, req.ctx.done = true) →
        (HandleRequest failingGetter mixed).outcome = .returned (some .contextCanceled) ∧
        ∀ first ∈ mixed.requests.head?, value = Block.zero first.block.typ) ∧
      ((∃ req ∈ mixed.requests, req.ctx.done = false) →
        ∃ req ∈ mixed.requests, req.ctx.done = false ∧
          ∀ first ∈ mixed.requests.head?,
            value = (failingGetter (some req.ctx) mixed.kmd mixed.blockPtr
              (Block.zero first.block.typ)).1 ∧
            (HandleRequest failingGetter mixed).outcome =
              (failingGetter (some req.ctx) mixed.kmd mixed.blockPtr
                (Block.zero first.block.typ)).2) :=
  ⟨by decide, by decide, fanout_copies_on_every_outcome failingGetter mixed (by decide)⟩


end libkbfs

/-! ## Claims about `realBlockGetter.getBlock` -/

namespace libkbfs

theorem getBlock_ok_eq (config : Config) (showPtr : BlockPointer → String) (ctx : Context)
    (kmd : KeyMetadata) (blockPtr : BlockPointer) (block : Block)
    (buf : List Byte) (half tlfKey key : Nat) (enc : List Byte) (block1 : Block)
    (hG : config.Get ctx kmd.TlfID blockPtr.ID blockPtr.BlockContext = .ok (buf, half))
    (hV : config.VerifyBlockID buf blockPtr.ID = none)
    (hK : config.GetTLFCryptKeyForBlockDecryption ctx kmd blockPtr = .ok tlfKey)
    (hU : config.UnmaskBlockCryptKey half tlfKey = .ok key)
    (hD : config.Decode buf = .ok enc)
    (hX : config.DecryptBlock enc key block = (block1, none)) :
    getBlock config showPtr ctx kmd blockPtr block =
      ⟨[.Get, .VerifyBlockID, .GetTLFCryptKeyForBlockDecryption, .UnmaskBlockCryptKey,
          .Decode, .DecryptBlock, .SetEncodedSize (uint32 buf.length)],
        block1.SetEncodedSize (uint32 buf.length), .returned none⟩ := by
  simp only [getBlock, hG, hV, hK, hU, hD, hX]

theorem getBlock_returned_none (config : Config) (showPtr : BlockPointer → String)
    (ctx : Context) (kmd : KeyMetadata) (blockPtr : BlockPointer) (block : Block)
    (hret : (getBlock config showPtr ctx kmd blockPtr block).outcome = .returned none) :
    ∃ buf half tlfKey key enc block1,
      config.Get ctx kmd.TlfID blockPtr.ID blockPtr.BlockContext = .ok (buf, half) ∧
      config.VerifyBlockID buf blockPtr.ID = none ∧
      config.GetTLFCryptKeyForBlockDecryption ctx kmd blockPtr = .ok tlfKey ∧
      config.UnmaskBlockCryptKey half tlfKey = .ok key ∧
      config.Decode buf = .ok enc ∧
      config.DecryptBlock enc key block = (block1, none) := by
  cases hG : config.Get ctx kmd.TlfID blockPtr.ID blockPtr.BlockContext with
  | error e =>
    by_cases hb : e.isBadRequest = true <;> simp [getBlock, hG, hb] at hret
  | ok p =>
    obtain ⟨buf, half⟩ := p
    cases hV : config.VerifyBlockID buf blockPtr.ID with
    | some e => simp [getBlock, hG, hV] at hret
    | none =>
      cases hK : config.GetTLFCryptKeyForBlockDecryption ctx kmd blockPtr with
      | error e => simp [getBlock, hG, hV, hK] at hret
      | ok tlfKey =>
        cases hU : config.UnmaskBlockCryptKey half tlfKey with
        | error e => simp [getBlock, hG, hV, hK, hU] at hret
        | ok key =>
          cases hD : config.Decode buf with
          | error e => simp [getBlock, hG, hV, hK, hU, hD] at hret
          | ok enc =>
            cases hX : config.DecryptBlock enc key block with
            | mk block1 oe =>
              cases oe with
              | some e => simp [getBlock, hG, hV, hK, hU, hD, hX] at hret
              | none =>
                refine ⟨buf, half, tlfKey, key, enc, block1, ?_, ?_, ?_, ?_, ?_, ?_⟩ <;>
                  first | rfl | assumption

end libkbfs

namespace libkbfs

theorem getBlock_returns_of_Get_ok (config : Config) (showPtr : BlockPointer → String)
    (ctx : Context) (kmd : KeyMetadata) (blockPtr : BlockPointer) (block : Block)
    (p : List Byte × Nat)
    (hG : config.Get ctx kmd.TlfID blockPtr.ID blockPtr.BlockContext = .ok p) :
    ∃ err, (getBlock config showPtr ctx kmd blockPtr block).outcome = .returned err := by
  obtain ⟨buf, half⟩ := p
  cases hV : config.VerifyBlockID buf blockPtr.ID with
  | some e => exact ⟨some e, by simp [getBlock, hG, hV]⟩
  | none =>
    cases hK : config.GetTLFCryptKeyForBlockDecryption ctx kmd blockPtr with
    | error e => exact ⟨some e, by simp [getBlock, hG, hV, hK]⟩
    | ok tlfKey =>
      cases hU : config.UnmaskBlockCryptKey half tlfKey with
      | error e => exact ⟨some e, by simp [getBlock, hG, hV, hK, hU]⟩
      | ok key =>
        cases hD : config.Decode buf with
        | error e => exact ⟨some e, by simp [getBlock, hG, hV, hK, hU, hD]⟩
        | ok enc =>
          cases hX : config.DecryptBlock enc key block with
          | mk block1 oe =>
            cases oe with
            | some e => exact ⟨some e, by simp [getBlock, hG, hV, hK, hU, hD, hX]⟩
            | none => exact ⟨none, by simp [getBlock, hG, hV, hK, hU, hD, hX]⟩

/-- C5: each failing pipeline step (a `Get` error other than bad-request,
`VerifyBlockID`, `GetTLFCryptKeyForBlockDecryption`, `UnmaskBlockCryptKey`,
`Decode`, `DecryptBlock`) makes `getBlock` return exactly that step's error,
having called only the steps up to it and never `SetEncodedSize`; and `getBlock`
returns `nil` exactly when all six steps succeed. -/
theorem getBlock_error_propagation (config : Config) (showPtr : BlockPointer → String)
    (ctx : Context) (kmd : KeyMetadata) (blockPtr : BlockPointer) (block : Block) :
    (∀ err, config.Get ctx kmd.TlfID blockPtr.ID blockPtr.BlockContext = .error err →
      err.isBadRequest = false →
      getBlock config showPtr ctx kmd blockPtr block =
        ⟨[.Get], block, .returned (some err)⟩) ∧
    (∀ buf half err,
      config.Get ctx kmd.TlfID blockPtr.ID blockPtr.BlockContext = .ok (buf, half) →
      config.VerifyBlockID buf blockPtr.ID = some err →
      getBlock config showPtr ctx kmd blockPtr block =
        ⟨[.Get, .VerifyBlockID], block, .returned (some err)⟩) ∧
    (∀ buf half err,
      config.Get ctx kmd.TlfID blockPtr.ID blockPtr.BlockContext = .ok (buf, half) →
      config.VerifyBlockID buf blockPtr.ID = none →
      config.GetTLFCryptKeyForBlockDecryption ctx kmd blockPtr = .error err →
      getBlock config showPtr ctx kmd blockPtr block =
        ⟨[.Get, .VerifyBlockID, .GetTLFCryptKeyForBlockDecryption], block,
          .returned (some err)⟩) ∧
    (∀ buf half tlfKey err,
      config.Get ctx kmd.TlfID blockPtr.ID blockPtr.BlockContext = .ok (buf, half) →
      config.VerifyBlockID buf blockPtr.ID = none →
      config.GetTLFCryptKeyForBlockDecryption ctx kmd blockPtr = .ok tlfKey →
      config.UnmaskBlockCryptKey half tlfKey = .error err →
      getBlock config showPtr ctx kmd blockPtr block =
        ⟨[.Get, .VerifyBlockID, .GetTLFCryptKeyForBlockDecryption, .UnmaskBlockCryptKey],
          block, .returned (some err)⟩) ∧
    (∀ buf half tlfKey key err,
      config.Get ctx kmd.TlfID blockPtr.ID blockPtr.BlockContext = .ok (buf, half) →
      config.VerifyBlockID buf blockPtr.ID = none →
      config.GetTLFCryptKeyForBlockDecryption ctx kmd blockPtr = .ok tlfKey →
      config.UnmaskBlockCryptKey half tlfKey = .ok key →
      config.Decode buf = .error err →
      getBlock config showPtr ctx kmd blockPtr block =
        ⟨[.Get, .VerifyBlockID, .GetTLFCryptKeyForBlockDecryption, .UnmaskBlockCryptKey,
            .Decode], block, .returned (some err)⟩) ∧
    (∀ buf half tlfKey key enc block1 err,
      config.Get ctx kmd.TlfID blockPtr.ID blockPtr.BlockContext = .ok (buf, half) →
      config.VerifyBlockID buf blockPtr.ID = none →
      config.GetTLFCryptKeyForBlockDecryption ctx kmd blockPtr = .ok tlfKey →
      config.UnmaskBlockCryptKey half tlfKey = .ok key →
      config.Decode buf = .ok enc →
      config.DecryptBlock enc key block = (block1, some err) →
      getBlock config showPtr ctx kmd blockPtr block =
        ⟨[.Get, .VerifyBlockID, .GetTLFCryptKeyForBlockDecryption, .UnmaskBlockCryptKey,
            .Decode, .DecryptBlock], block1, .returned (some err)⟩) ∧
    ((getBlock config showPtr ctx kmd blockPtr block).outcome = .returned none ↔
      ∃ buf half tlfKey key enc block1,
        config.Get ctx kmd.TlfID blockPtr.ID blockPtr.BlockContext = .ok (buf, half) ∧
        config.VerifyBlockID buf blockPtr.ID = none ∧
        config.GetTLFCryptKeyForBlockDecryption ctx kmd blockPtr = .ok tlfKey ∧
        config.UnmaskBlockCryptKey half tlfKey = .ok key ∧
        config.Decode buf = .ok enc ∧
        config.DecryptBlock enc key block = (block1, none)) := by
  refine ⟨?_, ?_, ?_, ?_, ?_, ?_, ?_, ?_⟩
  · intro err hG hb
    simp [getBlock, hG, hb]
  · intro buf half err hG hV
    simp only [getBlock, hG, hV]
  · intro buf half err hG hV hK
    simp only [getBlock, hG, hV, hK]
  · intro buf half tlfKey err hG hV hK hU
    simp only [getBlock, hG, hV, hK, hU]
  · intro buf half tlfKey key err hG hV hK hU hD
    simp only [getBlock, hG, hV, hK, hU, hD]
  · intro buf half tlfKey key enc block1 err hG hV hK hU hD hX
    simp only [getBlock, hG, hV, hK, hU, hD, hX]
  · exact getBlock_returned_none config showPtr ctx kmd blockPtr block
  · rintro ⟨buf, half, tlfKey, key, enc, block1, hG, hV, hK, hU, hD, hX⟩
    rw [getBlock_ok_eq config showPtr ctx kmd blockPtr block buf half tlfKey key enc block1
      hG hV hK hU hD hX]

/-- C6: `getBlock` ends in a panic exactly when the block server's `Get` returns
an error of type `BServerErrorBadRequest`; the panic message is the formatted
text naming the error and the block pointer; every other `Get` error is returned
normally, unchanged. -/
theorem getBlock_panics_iff_badRequest (config : Config) (showPtr : BlockPointer → String)
    (ctx : Context) (kmd : KeyMetadata) (blockPtr : BlockPointer) (block : Block) :
    ((∃ msg, (getBlock config showPtr ctx kmd blockPtr block).outcome = .panicked msg) ↔
      ∃ err, config.Get ctx kmd.TlfID blockPtr.ID blockPtr.BlockContext = .error err ∧
        err.isBadRequest = true) ∧
    (∀ err, config.Get ctx kmd.TlfID blockPtr.ID blockPtr.BlockContext = .error err →
      err.isBadRequest = true →
      (getBlock config showPtr ctx kmd blockPtr block).outcome =
        .panicked ("Bad BServer request detected: err=" ++ err.Error ++ ", blockPtr=" ++
          showPtr blockPtr)) ∧
    (∀ err, config.Get ctx kmd.TlfID blockPtr.ID blockPtr.BlockContext = .error err →
      err.isBadRequest = false →
      (getBlock config showPtr ctx kmd blockPtr block).outcome = .returned (some err)) := by
  refine ⟨⟨?_, ?_⟩, ?_, ?_⟩
  · rintro ⟨msg, hmsg⟩
    cases hG : config.Get ctx kmd.TlfID blockPtr.ID blockPtr.BlockContext with
    | error e =>
      by_cases hb : e.isBadRequest = true
      · exact ⟨e, rfl, hb⟩
      · simp [getBlock, hG, hb] at hmsg
    | ok p =>
      obtain ⟨e, he⟩ := getBlock_returns_of_Get_ok config showPtr ctx kmd blockPtr block p hG
      rw [he] at hmsg
      cases hmsg
  · rintro ⟨err, hG, hb⟩
    exact ⟨badRequestMessage showPtr err blockPtr, by simp [getBlock, hG, hb]⟩
  · intro err hG hb
    simp [getBlock, hG, hb, badRequestMessage]
  · intro err hG hb
    simp [getBlock, hG, hb]

end libkbfs

namespace libkbfs

/-- C7 (refutation as stated): it is not the case that after every successful
`getBlock` the recorded encoded size equals the byte length of the buffer the
block server returned; a buffer of `2 ^ 32` bytes records size `0`. -/
theorem encodedSize_wraps_at_two_pow_32 :
    ¬ (∀ (config : Config) (showPtr : BlockPointer → String) (ctx : Context)
        (kmd : KeyMetadata) (blockPtr : BlockPointer) (block : Block)
        (buf : List Byte) (half : Nat),
        config.Get ctx kmd.TlfID blockPtr.ID blockPtr.BlockContext = .ok (buf, half) →
        (getBlock config showPtr ctx kmd blockPtr block).outcome = .returned none →
        (getBlock config showPtr ctx kmd blockPtr block).block.encodedSize = buf.length) := by
  intro h
  have hrun := getBlock_ok_eq hugeConfig showPtrSample none sampleKmd samplePtr (Block.zero 0)
    (List.replicate 4294967296 0) 5 6 11 [] (Block.zero 0) rfl rfl rfl rfl rfl rfl
  have hbad := h hugeConfig showPtrSample none sampleKmd samplePtr (Block.zero 0)
    (List.replicate 4294967296 0) 5 rfl (by rw [hrun])
  rw [hrun, List.length_replicate] at hbad
  have hsize : ((Block.zero 0).SetEncodedSize (uint32 4294967296)).encodedSize = 0 := by
    show 4294967296 % 2 ^ 32 = 0
    norm_num
  rw [hsize] at hbad
  exact absurd hbad (by norm_num)

/-- C7 (amended): after every successful `getBlock` the recorded encoded size is
the byte length of the buffer the block server returned, reduced modulo `2 ^ 32`
by the `uint32` conversion; it is the byte length itself whenever that length is
below `2 ^ 32`. -/
theorem getBlock_encodedSize (config : Config) (showPtr : BlockPointer → String)
    (ctx : Context) (kmd : KeyMetadata) (blockPtr : BlockPointer) (block : Block)
    (hret : (getBlock config showPtr ctx kmd blockPtr block).outcome = .returned none) :
    ∃ buf half,
      config.Get ctx kmd.TlfID blockPtr.ID blockPtr.BlockContext = .ok (buf, half) ∧
      (getBlock config showPtr ctx kmd blockPtr block).block.encodedSize =
        buf.length % 2 ^ 32 ∧
      (buf.length < 2 ^ 32 →
        (getBlock config showPtr ctx kmd blockPtr block).block.encodedSize = buf.length) := by
  obtain ⟨buf, half, tlfKey, key, enc, block1, hG, hV, hK, hU, hD, hX⟩ :=
    getBlock_returned_none config showPtr ctx kmd blockPtr block hret
  have hrun := getBlock_ok_eq config showPtr ctx kmd blockPtr block buf half tlfKey key enc
    block1 hG hV hK hU hD hX
  refine ⟨buf, half, hG, ?_, ?_⟩
  · rw [hrun]
    rfl
  · intro hlt
    rw [hrun]
    exact Nat.mod_eq_of_lt hlt

theorem getBlock_encodedSize_witness :
    (getBlock okConfig showPtrSample none sampleKmd samplePtr (Block.zero 0)).outcome =
      .returned none ∧
    ∃ buf half,
      okConfig.Get none sampleKmd.TlfID samplePtr.ID samplePtr.BlockContext = .ok (buf, half) ∧
      (getBlock okConfig showPtrSample none sampleKmd samplePtr (Block.zero 0)).block.encodedSize
        = buf.length % 2 ^ 32 ∧
      (buf.length < 2 ^ 32 →
        (getBlock okConfig showPtrSample none sampleKmd samplePtr
          (Block.zero 0)).block.encodedSize = buf.length) :=
  ⟨by decide,
    getBlock_encodedSize okConfig showPtrSample none sampleKmd samplePtr (Block.zero 0)
      (by decide)⟩

end libkbfs

/-! ## Claims about `Account.Logout` -/

namespace libkb

/-- C10: `Account.Logout` returns exactly what `Logout()` on the local session
returned, and whether or not that call failed the resulting account has the
stream cache, login session, keyring and both cached paper keys set to nil, the
local session replaced by a new session and the secret syncer by a new syncer;
the session that was logged out is the one the account held before. -/
theorem Logout_clears_state (g : GlobalContext) (a : Account) :
    (a.Logout g).err = g.sessionLogout a.localSession ∧
    (a.Logout g).account.streamCache = none ∧
    (a.Logout g).account.loginSession = none ∧
    (a.Logout g).account.skbKeyring = none ∧
    (a.Logout g).account.paperSigKey = none ∧
    (a.Logout g).account.paperEncKey = none ∧
    (a.Logout g).account.localSession = g.newSession ∧
    (a.Logout g).account.secretSyncer = g.NewSecretSyncer ∧
    Call.sessionLogout a.localSession ∈ (a.Logout g).calls := by
  refine ⟨rfl, rfl, rfl, rfl, rfl, rfl, rfl, rfl, ?_⟩
  cases h : g.sessionLogout a.localSession <;>
    simp [Account.Logout, Account.ClearStreamCache, h]

end libkb

namespace libkb

/-- A run of `Logout` in which the session's `Logout` fails: the error comes
back and the account is cleared all the same. -/
theorem Logout_failing_sample :
    (sampleAccount.Logout failingGlobal).err = some "logout failed" ∧
    (sampleAccount.Logout failingGlobal).account =
      ⟨⟨2⟩, ⟨2, false⟩, none, none, none, none, none, 0⟩ := by
  decide

end libkb
